import Mathlib

/-!
TaskBuddy gamification engine: a verification development.

This file is a shallow embedding of the gamification core of the TaskBuddy
repository (the XP/level model, streak calculator, points/bonus engine,
achievement engine, leaderboard service, and the SQL trigger
validate_points_balance), together with theorems settling the specification
claims about that core.

Conventions of the embedding:

* JavaScript numbers are embedded as integers (ℤ) where the code only ever
  holds integers, and as exact rationals (ℚ) for the decimal constants
  (0.05, 2.5, 1.5, percentage tiers) and the intermediate arithmetic on
  them.  JavaScript Math.round (round half toward positive infinity) is
  jsRound below.  Math.floor of the (irrational) quantity 100 * l ^ 1.5 is
  embedded exactly as Nat.sqrt (10000 * l ^ 3), since
  (100 * l ^ 1.5) ^ 2 = 10000 * l ^ 3.
* Timestamps (JavaScript Date values) are ℤ milliseconds since the Unix
  epoch; the calendar date that toISOString().split with 'T' produces is
  the UTC day index, i.e. floor division of the timestamp by 86400000.
  On ℤ, / is Euclidean division, which coincides with floor division for
  the positive divisors used here.
* Database state is passed explicitly (lists of rows), and external
  queries are parameters of the embedded functions.
-/

namespace TaskBuddy

/-- JavaScript `Math.round`: round half toward positive infinity. -/
def jsRound (q : ℚ) : ℤ := ⌊q + 1 / 2⌋

/-! Part 1: the XP / level model (lib/gamification/xpSystem.ts). -/

def BASE_XP : ℕ := 100

/-- GROWTH_FACTOR = 1.5 of the source; the exponent is embedded inside
`xpRequiredForLevel` via the square root. -/
def GROWTH_FACTOR : ℚ := 3 / 2

def MAX_LEVEL : ℕ := 100

/-- `xpRequiredForLevel(level)`: 0 for level ≤ 0, else
`Math.floor(BASE_XP * Math.pow(level, GROWTH_FACTOR))`, i.e.
floor (100 * level ^ 1.5) = Nat.sqrt (10000 * level ^ 3). -/
def xpRequiredForLevel (level : ℤ) : ℕ :=
  if level ≤ 0 then 0 else Nat.sqrt (10000 * level.toNat ^ 3)

/-- `cumulativeXpForLevel(level)`: the loop `for i = 1..level, total += xpRequiredForLevel(i)`. -/
def cumulativeXpForLevel (level : ℤ) : ℕ :=
  ((List.range level.toNat).map (fun i : ℕ => xpRequiredForLevel ((i : ℤ) + 1))).sum

structure LevelInfo where
  level : ℕ
  currentXp : ℤ
  xpToNext : ℕ
  progress : ℤ
  deriving DecidableEq

/-- The while loop of `levelFromXp`: while level < MAX_LEVEL and the remainder
covers the requirement, subtract and advance.  The fuel argument is
MAX_LEVEL - level, so running out of fuel is exactly the `level < MAX_LEVEL`
guard failing. -/
def levelWalk : ℕ → ℕ → ℤ → ℕ × ℤ
  | 0, level, rem => (level, rem)
  | fuel + 1, level, rem =>
    if rem < (xpRequiredForLevel (level : ℤ) : ℤ) then (level, rem)
    else levelWalk fuel (level + 1) (rem - (xpRequiredForLevel (level : ℤ) : ℤ))

/-- `levelFromXp(totalXp)` of the source. -/
def levelFromXp (totalXp : ℤ) : LevelInfo :=
  let w := levelWalk (MAX_LEVEL - 1) 1 totalXp
  let xpToNext := xpRequiredForLevel (w.1 : ℤ)
  { level := w.1
    currentXp := w.2
    xpToNext := xpToNext
    progress := jsRound (min ((w.2 : ℚ) / (xpToNext : ℚ) * 100) 100) }

/-- Characterisation of `Nat.sqrt` used to evaluate the XP curve. -/
theorem sqrt_eq_of_sq_le_lt (k n : ℕ) (h1 : k * k ≤ n) (h2 : n < (k + 1) * (k + 1)) :
    Nat.sqrt n = k := by
  have a : k ≤ Nat.sqrt n := Nat.le_sqrt.mpr h1
  have b : Nat.sqrt n < k + 1 := Nat.sqrt_lt.mpr h2
  omega

theorem xpRequiredForLevel_one_hundred_le (l : ℤ) (h : 1 ≤ l) :
    100 ≤ xpRequiredForLevel l := by
  rw [xpRequiredForLevel, if_neg (by omega)]
  have h1 : 1 ≤ l.toNat := by omega
  have h2 : (10000 : ℕ) ≤ 10000 * l.toNat ^ 3 := by
    have h3 : 1 ≤ l.toNat ^ 3 := Nat.one_le_pow 3 _ (by omega)
    omega
  calc 100 = Nat.sqrt 10000 := (sqrt_eq_of_sq_le_lt 100 10000 (by norm_num) (by norm_num)).symm
    _ ≤ Nat.sqrt (10000 * l.toNat ^ 3) := Nat.sqrt_le_sqrt h2

theorem levelWalk_succ (fuel level : ℕ) (rem : ℤ) :
    levelWalk (fuel + 1) level rem
      = if rem < (xpRequiredForLevel (level : ℤ) : ℤ) then (level, rem)
        else levelWalk fuel (level + 1) (rem - (xpRequiredForLevel (level : ℤ) : ℤ)) := rfl

theorem levelWalk_sum (k : ℕ) :
    ∀ (l f : ℕ), 1 ≤ l → k ≤ f →
      levelWalk f l (∑ j in Finset.range k, (xpRequiredForLevel ((l : ℤ) + j) : ℤ))
        = (l + k, 0) := by
  induction k with
  | zero =>
    intro l f hl _
    cases f with
    | zero => simp [levelWalk]
    | succ f =>
      have hpos : (0 : ℤ) < (xpRequiredForLevel (l : ℤ) : ℤ) := by
        have := xpRequiredForLevel_one_hundred_le (l : ℤ) (by exact_mod_cast hl)
        omega
      simp only [Finset.range_zero, Finset.sum_empty]
      rw [levelWalk_succ, if_pos hpos]
      simp
  | succ k ih =>
    intro l f hl hf
    obtain ⟨f', rfl⟩ : ∃ f', f = f' + 1 := ⟨f - 1, by omega⟩
    have step : (∑ j in Finset.range k, (xpRequiredForLevel ((l : ℤ) + ((j + 1 : ℕ) : ℤ)) : ℤ))
        = ∑ j in Finset.range k, (xpRequiredForLevel (((l + 1 : ℕ) : ℤ) + (j : ℤ)) : ℤ) :=
      Finset.sum_congr rfl fun j _ => by
        have harg : (l : ℤ) + ((j + 1 : ℕ) : ℤ) = ((l + 1 : ℕ) : ℤ) + (j : ℤ) := by
          push_cast; ring
        rw [harg]
    have hzero : (xpRequiredForLevel ((l : ℤ) + ((0 : ℕ) : ℤ)) : ℤ)
        = (xpRequiredForLevel (l : ℤ) : ℤ) := by norm_num
    rw [Finset.sum_range_succ', step, hzero]
    have hS : (0 : ℤ)
        ≤ ∑ j in Finset.range k, (xpRequiredForLevel (((l + 1 : ℕ) : ℤ) + (j : ℤ)) : ℤ) :=
      Finset.sum_nonneg fun j _ => by positivity
    rw [levelWalk_succ, if_neg (by omega)]
    rw [show (∑ j in Finset.range k, (xpRequiredForLevel (((l + 1 : ℕ) : ℤ) + (j : ℤ)) : ℤ))
          + (xpRequiredForLevel (l : ℤ) : ℤ) - (xpRequiredForLevel (l : ℤ) : ℤ)
        = ∑ j in Finset.range k, (xpRequiredForLevel (((l + 1 : ℕ) : ℤ) + (j : ℤ)) : ℤ)
      from by ring]
    rw [ih (l + 1) f' (by omega) (by omega)]
    rw [show l + 1 + k = l + (k + 1) from by omega]

/-- List-range sums of the XP requirements agree with Finset-range sums. -/
theorem cumulativeXp_list_sum (n : ℕ) :
    (((List.range n).map (fun i : ℕ => xpRequiredForLevel ((i : ℤ) + 1))).sum : ℤ)
      = ∑ j in Finset.range n, (xpRequiredForLevel ((1 : ℤ) + (j : ℤ)) : ℤ) := by
  induction n with
  | zero => simp
  | succ m ih =>
    rw [List.range_succ, List.map_append, List.sum_append, Finset.sum_range_succ,
      Nat.cast_add, ih]
    rw [List.map_cons, List.map_nil, List.sum_cons, List.sum_nil, add_zero]
    rw [show ((m : ℤ) + 1) = (1 : ℤ) + (m : ℤ) from add_comm _ _]

theorem cumulativeXpForLevel_cast (L : ℕ) :
    ((cumulativeXpForLevel (L : ℤ)) : ℤ)
      = ∑ j in Finset.range L, (xpRequiredForLevel ((1 : ℤ) + j) : ℤ) := by
  rw [cumulativeXpForLevel]
  rw [show ((L : ℤ)).toNat = L from by omega]
  exact cumulativeXp_list_sum L

theorem levelFromXp_level (x : ℤ) :
    (levelFromXp x).level = (levelWalk (MAX_LEVEL - 1) 1 x).1 := rfl

theorem levelFromXp_currentXp (x : ℤ) :
    (levelFromXp x).currentXp = (levelWalk (MAX_LEVEL - 1) 1 x).2 := rfl

/-- C2 (amended): for 1 ≤ L ≤ 99, `levelFromXp (cumulativeXpForLevel L)` returns
level L + 1 (not L) with `currentXp = 0`: the walk subtracts the requirements of
levels 1..L and therefore lands at the start of level L + 1. -/
theorem levelFromXp_cumulativeXpForLevel (L : ℕ) (h1 : 1 ≤ L) (h2 : L ≤ 99) :
    (levelFromXp ((cumulativeXpForLevel (L : ℤ) : ℕ) : ℤ)).level = L + 1 ∧
    (levelFromXp ((cumulativeXpForLevel (L : ℤ) : ℕ) : ℤ)).currentXp = 0 := by
  have hw := levelWalk_sum L 1 99 le_rfl (by omega)
  have hc := cumulativeXpForLevel_cast L
  have hwalk : levelWalk (MAX_LEVEL - 1) 1 ((cumulativeXpForLevel (L : ℤ) : ℕ) : ℤ)
      = (1 + L, 0) := by
    rw [show MAX_LEVEL - 1 = 99 from rfl, hc]
    simpa using hw
  constructor
  · rw [levelFromXp_level, hwalk]
    omega
  · rw [levelFromXp_currentXp, hwalk]

/-- C2 (counterexample): at L = 1 the claim as stated fails: `levelFromXp`
applied to `cumulativeXpForLevel 1` returns level 2, not level 1. -/
theorem levelFromXp_cumulativeXpForLevel_one :
    (levelFromXp ((cumulativeXpForLevel (1 : ℤ) : ℕ) : ℤ)).level = 2 ∧
    ¬ ((levelFromXp ((cumulativeXpForLevel (1 : ℤ) : ℕ) : ℤ)).level = 1 ∧
       (levelFromXp ((cumulativeXpForLevel (1 : ℤ) : ℕ) : ℤ)).currentXp = 0) := by
  have hw := levelWalk_sum 1 1 99 le_rfl (by omega)
  have hc := cumulativeXpForLevel_cast 1
  norm_num at hc
  have hwalk : levelWalk (MAX_LEVEL - 1) 1 ((cumulativeXpForLevel (1 : ℤ) : ℕ) : ℤ)
      = (2, 0) := by
    rw [show MAX_LEVEL - 1 = 99 from rfl, hc]
    simpa using hw
  have hl : (levelFromXp ((cumulativeXpForLevel (1 : ℤ) : ℕ) : ℤ)).level = 2 := by
    rw [levelFromXp_level, hwalk]
  exact ⟨hl, fun h => by omega⟩

/-- C2 (witness for the amended theorem): at L = 1 the result is level 2 with
`currentXp = 0`. -/
theorem levelFromXp_cumulativeXpForLevel_witness :
    (levelFromXp ((cumulativeXpForLevel ((1 : ℕ) : ℤ) : ℕ) : ℤ)).level = 1 + 1 ∧
    (levelFromXp ((cumulativeXpForLevel ((1 : ℕ) : ℤ) : ℕ) : ℤ)).currentXp = 0 :=
  levelFromXp_cumulativeXpForLevel 1 (by decide) (by decide)

/-! Part 2: the points / bonus engine (lib/gamification/bonusCalculator.ts). -/

def STREAK_MULTIPLIER : ℚ := 5 / 100

def MAX_STREAK_BONUS : ℚ := 5 / 2

def STREAK_MILESTONES : List ℤ := [3, 7, 14, 30, 60, 100]

structure Breakdown where
  base : ℤ
  streak : ℤ
  milestone : ℤ
  deriving DecidableEq

structure PointsBreakdown where
  basePoints : ℤ
  streakMultiplier : ℚ
  streakBonus : ℤ
  milestoneBonus : ℤ
  totalPoints : ℤ
  breakdown : Breakdown
  deriving DecidableEq

/-- `calculateStreakBonus(basePoints, streakDays)` of the source: capped
multiplier, rounded streak bonus, milestone spike on exact milestone days. -/
def calculateStreakBonus (basePoints streakDays : ℤ) : PointsBreakdown :=
  let multiplier : ℚ := min (1 + (streakDays : ℚ) * STREAK_MULTIPLIER) MAX_STREAK_BONUS
  let bonusPoints : ℤ := jsRound ((basePoints : ℚ) * (multiplier - 1))
  let totalPoints : ℤ := basePoints + bonusPoints
  let milestoneBonus : ℤ := if streakDays ∈ STREAK_MILESTONES then streakDays * 5 else 0
  { basePoints := basePoints
    streakMultiplier := multiplier
    streakBonus := bonusPoints
    milestoneBonus := milestoneBonus
    totalPoints := totalPoints + milestoneBonus
    breakdown := ⟨basePoints, bonusPoints, milestoneBonus⟩ }

/-- `calculateEarlyCompletionBonus(basePoints, dueDate, completedAt)` of the
source; timestamps in milliseconds, `hoursEarly` exact. -/
def calculateEarlyCompletionBonus (basePoints : ℤ) (dueDate completedAt : ℤ) : ℤ :=
  if dueDate ≤ completedAt then 0
  else
    let hoursEarly : ℚ := ((dueDate - completedAt : ℤ) : ℚ) / 3600000
    if 48 ≤ hoursEarly then jsRound ((basePoints : ℚ) * (25 / 100))
    else if 24 ≤ hoursEarly then jsRound ((basePoints : ℚ) * (15 / 100))
    else if 12 ≤ hoursEarly then jsRound ((basePoints : ℚ) * (10 / 100))
    else if 6 ≤ hoursEarly then jsRound ((basePoints : ℚ) * (5 / 100))
    else 0

theorem jsRound_nonneg (q : ℚ) (h : 0 ≤ q) : 0 ≤ jsRound q :=
  Int.le_floor.mpr (by push_cast; linarith)

theorem jsRound_intCast (z : ℤ) : jsRound (z : ℚ) = z := by
  simp [jsRound]
  norm_num

/-- C3: the streak-bonus formula: multiplier min (1 + d * 0.05) 2.5, rounded
streak bonus, milestone spike exactly on days 3/7/14/30/60/100,
totalPoints = base + streak + milestone; milestone 35 at day 7 and 0 at day 8;
for base 100 and 0 ≤ d ≤ 200 the total never drops below 100 and the
multiplier never exceeds 2.5. -/
theorem calculateStreakBonus_spec :
    (∀ b d : ℤ, 0 ≤ b → 0 ≤ d →
      (calculateStreakBonus b d).streakMultiplier
          = min (1 + (d : ℚ) * (5 / 100)) (5 / 2) ∧
      (calculateStreakBonus b d).streakBonus
          = jsRound ((b : ℚ) * ((calculateStreakBonus b d).streakMultiplier - 1)) ∧
      (calculateStreakBonus b d).milestoneBonus
          = (if d = 3 ∨ d = 7 ∨ d = 14 ∨ d = 30 ∨ d = 60 ∨ d = 100 then d * 5 else 0) ∧
      (calculateStreakBonus b d).totalPoints
          = b + (calculateStreakBonus b d).streakBonus
            + (calculateStreakBonus b d).milestoneBonus ∧
      (calculateStreakBonus b d).streakMultiplier ≤ 5 / 2) ∧
    (calculateStreakBonus 100 7).breakdown.milestone = 35 ∧
    (calculateStreakBonus 100 8).breakdown.milestone = 0 ∧
    (∀ d : ℤ, 0 ≤ d → d ≤ 200 → 100 ≤ (calculateStreakBonus 100 d).totalPoints) := by
  refine ⟨fun b d hb hd => ?_, by decide, by decide, fun d hd _ => ?_⟩
  · refine ⟨rfl, rfl, ?_, rfl, min_le_right _ _⟩
    show (if d ∈ STREAK_MILESTONES then d * 5 else 0) = _
    congr 1
    simp [STREAK_MILESTONES]
  · have hmul : (1 : ℚ) ≤ min (1 + (d : ℚ) * STREAK_MULTIPLIER) MAX_STREAK_BONUS := by
      have hd' : (0 : ℚ) ≤ (d : ℚ) := by exact_mod_cast hd
      refine le_min (by rw [STREAK_MULTIPLIER]; nlinarith) (by norm_num [MAX_STREAK_BONUS])
    have hsb : 0 ≤ (calculateStreakBonus 100 d).streakBonus := by
      show 0 ≤ jsRound ((100 : ℚ) * (min (1 + (d : ℚ) * STREAK_MULTIPLIER) MAX_STREAK_BONUS - 1))
      exact jsRound_nonneg _ (by nlinarith [hmul])
    have hmb : 0 ≤ (calculateStreakBonus 100 d).milestoneBonus := by
      show (0 : ℤ) ≤ if d ∈ STREAK_MILESTONES then d * 5 else 0
      split <;> omega
    have htot : (calculateStreakBonus 100 d).totalPoints
        = 100 + (calculateStreakBonus 100 d).streakBonus
          + (calculateStreakBonus 100 d).milestoneBonus := rfl
    omega

/-- C3 (witness): the formula conjuncts and the lower bound instantiated at
base 100, streak day 7. -/
theorem calculateStreakBonus_spec_witness :
    (calculateStreakBonus 100 7).totalPoints
        = 100 + (calculateStreakBonus 100 7).streakBonus
          + (calculateStreakBonus 100 7).milestoneBonus ∧
    100 ≤ (calculateStreakBonus 100 7).totalPoints :=
  ⟨(calculateStreakBonus_spec.1 100 7 (by norm_num) (by norm_num)).2.2.2.1,
   calculateStreakBonus_spec.2.2.2 7 (by norm_num) (by norm_num)⟩

/-- C9 (counterexample): none of the core numeric functions rejects negative
input; each returns an ordinary computed value.  `calculateStreakBonus` with
basePoints -100 and streakDays -10 returns totalPoints -50 (the formula applied
to the negatives), `xpRequiredForLevel (-1)` returns 0, and
`calculateEarlyCompletionBonus` with basePoints -100 returns -25. -/
theorem negative_inputs_counterexample :
    (calculateStreakBonus (-100) (-10)).totalPoints = -50 ∧
    xpRequiredForLevel (-1) = 0 ∧
    calculateEarlyCompletionBonus (-100) (49 * 3600000) 0 = -25 := by
  refine ⟨?_, by decide, ?_⟩
  · show -100 + jsRound ((-100 : ℚ) * (min (1 + (-10 : ℚ) * STREAK_MULTIPLIER) MAX_STREAK_BONUS - 1))
        + (if (-10 : ℤ) ∈ STREAK_MILESTONES then (-10) * 5 else 0) = -50
    have h1 : min (1 + (-10 : ℚ) * STREAK_MULTIPLIER) MAX_STREAK_BONUS = 1 / 2 := by
      rw [STREAK_MULTIPLIER, MAX_STREAK_BONUS]; norm_num
    rw [h1]
    rw [show ((-100 : ℚ) * (1 / 2 - 1)) = ((50 : ℤ) : ℚ) from by norm_num]
    rw [jsRound_intCast]
    rw [if_neg (by decide : ¬ ((-10 : ℤ) ∈ STREAK_MILESTONES))]
    norm_num
  · rw [calculateEarlyCompletionBonus, if_neg (by norm_num)]
    rw [if_pos (by norm_num)]
    rw [show (((-100 : ℤ) : ℚ) * (25 / 100)) = ((-25 : ℤ) : ℚ) from by norm_num]
    rw [jsRound_intCast]

/-- C9 (amended): the core functions perform no input validation.  On negative
`basePoints` and `streakDays` `calculateStreakBonus` still applies its formula
(with milestone bonus 0, since no milestone is negative), `xpRequiredForLevel`
returns 0 for every level ≤ 0, and `calculateEarlyCompletionBonus` still
applies its tier formula for any `basePoints`. -/
theorem negative_inputs_computed (b d lvl : ℤ) (hb : b < 0) (hd : d < 0) (hl : lvl ≤ 0) :
    (calculateStreakBonus b d).streakMultiplier
        = min (1 + (d : ℚ) * (5 / 100)) (5 / 2) ∧
    (calculateStreakBonus b d).milestoneBonus = 0 ∧
    (calculateStreakBonus b d).totalPoints
        = b + jsRound ((b : ℚ) * (min (1 + (d : ℚ) * (5 / 100)) (5 / 2) - 1)) ∧
    xpRequiredForLevel lvl = 0 ∧
    (∀ due c : ℤ, c < due → (48 : ℚ) ≤ ((due - c : ℤ) : ℚ) / 3600000 →
        calculateEarlyCompletionBonus b due c = jsRound ((b : ℚ) * (25 / 100))) := by
  have hmile : (calculateStreakBonus b d).milestoneBonus = 0 := by
    show (if d ∈ STREAK_MILESTONES then d * 5 else 0) = 0
    rw [if_neg]
    intro h
    fin_cases h <;> omega
  refine ⟨rfl, hmile, ?_, by rw [xpRequiredForLevel, if_pos hl], fun due c h1 h2 => ?_⟩
  · have : (calculateStreakBonus b d).totalPoints
        = b + jsRound ((b : ℚ) * (min (1 + (d : ℚ) * (5 / 100)) (5 / 2) - 1))
          + (calculateStreakBonus b d).milestoneBonus := rfl
    omega
  · rw [calculateEarlyCompletionBonus, if_neg (by omega), if_pos h2]

/-- C9 (witness for the amended theorem): instantiated at basePoints -100,
streakDays -10, level -1, and a completion 49 hours before its due date. -/
theorem negative_inputs_computed_witness :
    (calculateStreakBonus (-100) (-10)).milestoneBonus = 0 ∧
    xpRequiredForLevel (-1) = 0 ∧
    calculateEarlyCompletionBonus (-100) (49 * 3600000) 0
        = jsRound ((-100 : ℚ) * (25 / 100)) := by
  have h := negative_inputs_computed (-100) (-10) (-1)
    (by norm_num) (by norm_num) (by norm_num)
  exact ⟨h.2.1, h.2.2.2.1, h.2.2.2.2 (49 * 3600000) 0 (by norm_num) (by norm_num)⟩

/-! Part 3: the streak calculator (lib/gamification/streakSystem.ts). -/

structure StreakConfig where
  gracePeriodHours : ℤ
  timezoneOffset : ℤ
  minimumTasksPerDay : ℕ
  deriving DecidableEq

def DEFAULT_CONFIG : StreakConfig :=
  { gracePeriodHours := 4, timezoneOffset := 0, minimumTasksPerDay := 1 }

/-- The calendar date of an instant: the UTC day index produced by
`toISOString().split` on 'T' (ℤ division by a positive constant is floor
division). -/
def calendarDate (t : ℤ) : ℤ := t / 86400000

/-- `getStreakDay(timestamp)`: subtract the grace period, then take the
calendar date of the adjusted instant. -/
def getStreakDay (cfg : StreakConfig) (t : ℤ) : ℤ :=
  (t - cfg.gracePeriodHours * 3600000) / 86400000

structure StreakResult where
  currentStreak : ℕ
  streakAtRisk : Bool
  completedToday : ℕ
  requiredDaily : ℕ
  deriving DecidableEq

/-- The trailing 90-day restriction of the completion query
(`approved_at ≥ ninetyDaysAgo`). -/
def recentCompletions (completions : List ℤ) (now : ℤ) : List ℤ :=
  completions.filter (fun t => decide (now - 90 * 86400000 ≤ t))

/-- `completionsByDay.get(d) || 0`: the number of completions whose streak day
is `d`. -/
def streakDayCount (cfg : StreakConfig) (l : List ℤ) (d : ℤ) : ℕ :=
  (l.filter (fun t => decide (getStreakDay cfg t = d))).length

/-- The `while (true)` walk of `calculateStreak`: a day meeting the minimum
increments the streak and moves to the previous day; otherwise, if the streak
is still 0 and the day under check is today, skip to yesterday; otherwise stop.
The walk terminates in at most `(number of completions) + 2` steps whenever
`minimumTasksPerDay ≥ 1`, so that fuel makes the embedding total (with
`minimumTasksPerDay = 0` the source loop never terminates). -/
def streakWalk (cfg : StreakConfig) (count : ℤ → ℕ) (todayDay : ℤ) :
    ℕ → ℤ → ℕ → ℕ
  | 0, _, streak => streak
  | fuel + 1, checkDay, streak =>
    if cfg.minimumTasksPerDay ≤ count checkDay then
      streakWalk cfg count todayDay fuel (checkDay - 1) (streak + 1)
    else if streak = 0 ∧ checkDay = todayDay then
      streakWalk cfg count todayDay fuel (checkDay - 1) streak
    else streak

/-- `calculateStreak(childId)` of the source, with the external completion
query (timestamps of approved completions) and the current time passed in. -/
def calculateStreak (cfg : StreakConfig) (completions : List ℤ) (now : ℤ) :
    StreakResult :=
  let recent := recentCompletions completions now
  let todayDay := getStreakDay cfg now
  let count := fun d => streakDayCount cfg recent d
  let streak := streakWalk cfg count todayDay (recent.length + 2) todayDay 0
  let todayCount := count todayDay
  { currentStreak := streak
    streakAtRisk := decide (0 < streak ∧ todayCount < cfg.minimumTasksPerDay)
    completedToday := todayCount
    requiredDaily := cfg.minimumTasksPerDay }

/-- C5: `getStreakDay` is the calendar date of the instant `gracePeriodHours`
hours before the timestamp; with the default grace period of 4 hours, a
completion at 01:30 of day D falls on streak day D - 1 and a completion at
05:00 of day D falls on streak day D. -/
theorem getStreakDay_spec :
    (∀ (cfg : StreakConfig) (t : ℤ),
        getStreakDay cfg t = calendarDate (t - cfg.gracePeriodHours * 3600000)) ∧
    (∀ D : ℤ, getStreakDay DEFAULT_CONFIG (D * 86400000 + 5400000) = D - 1) ∧
    (∀ D : ℤ, getStreakDay DEFAULT_CONFIG (D * 86400000 + 18000000) = D) := by
  refine ⟨fun cfg t => rfl, fun D => ?_, fun D => ?_⟩ <;>
    simp only [getStreakDay, DEFAULT_CONFIG] <;> omega

theorem streakWalk_succ (cfg : StreakConfig) (count : ℤ → ℕ) (todayDay : ℤ)
    (fuel : ℕ) (checkDay : ℤ) (streak : ℕ) :
    streakWalk cfg count todayDay (fuel + 1) checkDay streak
      = if cfg.minimumTasksPerDay ≤ count checkDay then
          streakWalk cfg count todayDay fuel (checkDay - 1) (streak + 1)
        else if streak = 0 ∧ checkDay = todayDay then
          streakWalk cfg count todayDay fuel (checkDay - 1) streak
        else streak := rfl

theorem StreakResult.ext' (a b : StreakResult)
    (h1 : a.currentStreak = b.currentStreak) (h2 : a.streakAtRisk = b.streakAtRisk)
    (h3 : a.completedToday = b.completedToday) (h4 : a.requiredDaily = b.requiredDaily) :
    a = b := by
  cases a; cases b; simp_all

/-- The walk never reads `timezoneOffset`: changing that field of the
configuration leaves every step unchanged. -/
theorem streakWalk_tz (g tz0 tz1 : ℤ) (m : ℕ) (count : ℤ → ℕ) (todayDay : ℤ) :
    ∀ (fuel : ℕ) (d : ℤ) (s : ℕ),
      streakWalk ⟨g, tz1, m⟩ count todayDay fuel d s
        = streakWalk ⟨g, tz0, m⟩ count todayDay fuel d s := by
  intro fuel
  induction fuel with
  | zero => intro d s; rfl
  | succ f ih =>
    intro d s
    rw [streakWalk_succ, streakWalk_succ]
    by_cases h1 : m ≤ count d
    · rw [if_pos h1, if_pos h1, ih]
    · rw [if_neg h1, if_neg h1]
      by_cases h2 : s = 0 ∧ d = todayDay
      · rw [if_pos h2, if_pos h2, ih]
      · rw [if_neg h2, if_neg h2]

/-- C10: the `timezoneOffset` field of the configuration is never read:
`getStreakDay` and `calculateStreak` return identical results for two
configurations that differ only in it. -/
theorem timezoneOffset_unused (cfg : StreakConfig) (tz : ℤ) (t now : ℤ)
    (completions : List ℤ) :
    getStreakDay { cfg with timezoneOffset := tz } t = getStreakDay cfg t ∧
    calculateStreak { cfg with timezoneOffset := tz } completions now
        = calculateStreak cfg completions now := by
  obtain ⟨g, tz0, m⟩ := cfg
  have hw := streakWalk_tz g tz0 tz m
    (fun d => streakDayCount ⟨g, tz0, m⟩ (recentCompletions completions now) d)
    (getStreakDay ⟨g, tz0, m⟩ now)
    ((recentCompletions completions now).length + 2)
    (getStreakDay ⟨g, tz0, m⟩ now) 0
  refine ⟨rfl, StreakResult.ext' _ _ ?_ ?_ rfl rfl⟩
  · exact hw
  · show decide (0 < streakWalk ⟨g, tz, m⟩
        (fun d => streakDayCount ⟨g, tz0, m⟩ (recentCompletions completions now) d)
        (getStreakDay ⟨g, tz0, m⟩ now)
        ((recentCompletions completions now).length + 2)
        (getStreakDay ⟨g, tz0, m⟩ now) 0 ∧
        streakDayCount ⟨g, tz0, m⟩ (recentCompletions completions now)
          (getStreakDay ⟨g, tz0, m⟩ now) < m)
      = decide (0 < streakWalk ⟨g, tz0, m⟩
        (fun d => streakDayCount ⟨g, tz0, m⟩ (recentCompletions completions now) d)
        (getStreakDay ⟨g, tz0, m⟩ now)
        ((recentCompletions completions now).length + 2)
        (getStreakDay ⟨g, tz0, m⟩ now) 0 ∧
        streakDayCount ⟨g, tz0, m⟩ (recentCompletions completions now)
          (getStreakDay ⟨g, tz0, m⟩ now) < m)
    rw [hw]

/-- The walk over a backward run of qualifying days: starting on a day `d`
(with either a positive streak already or `d` itself qualifying), if the `k`
days `d, d-1, …, d-k+1` all meet the minimum and day `d-k` does not, the walk
adds exactly `k` to the streak. -/
theorem streakWalk_run (cfg : StreakConfig) (count : ℤ → ℕ) (todayDay : ℤ) (k : ℕ) :
    ∀ (d : ℤ) (s fuel : ℕ),
      (0 < s ∨ cfg.minimumTasksPerDay ≤ count d) →
      (∀ j : ℕ, j < k → cfg.minimumTasksPerDay ≤ count (d - (j : ℤ))) →
      count (d - (k : ℤ)) < cfg.minimumTasksPerDay →
      k + 1 ≤ fuel →
      streakWalk cfg count todayDay fuel d s = s + k := by
  induction k with
  | zero =>
    intro d s fuel hs hall hstop hfuel
    obtain ⟨f, rfl⟩ : ∃ f, fuel = f + 1 := ⟨fuel - 1, by omega⟩
    simp only [Nat.cast_zero, sub_zero] at hstop
    have hspos : 0 < s := by
      rcases hs with h | h
      · exact h
      · omega
    rw [streakWalk_succ, if_neg (by omega), if_neg (by omega)]
    omega
  | succ k ih =>
    intro d s fuel hs hall hstop hfuel
    obtain ⟨f, rfl⟩ : ∃ f, fuel = f + 1 := ⟨fuel - 1, by omega⟩
    have h0 : cfg.minimumTasksPerDay ≤ count d := by
      have := hall 0 (by omega)
      simpa using this
    rw [streakWalk_succ, if_pos h0]
    have hall' : ∀ j : ℕ, j < k → cfg.minimumTasksPerDay ≤ count (d - 1 - (j : ℤ)) := by
      intro j hj
      have := hall (j + 1) (by omega)
      rwa [show d - ((j + 1 : ℕ) : ℤ) = d - 1 - (j : ℤ) by push_cast; ring] at this
    have hstop' : count (d - 1 - (k : ℤ)) < cfg.minimumTasksPerDay := by
      rwa [show d - ((k + 1 : ℕ) : ℤ) = d - 1 - (k : ℤ) by push_cast; ring] at hstop
    rw [ih (d - 1) (s + 1) f (Or.inl (by omega)) hall' hstop' (by omega)]
    omega

theorem streakDayCount_cons (cfg : StreakConfig) (t : ℤ) (l : List ℤ) (x : ℤ) :
    streakDayCount cfg (t :: l) x
      = (if getStreakDay cfg t = x then 1 else 0) + streakDayCount cfg l x := by
  simp only [streakDayCount, List.filter_cons, decide_eq_true_eq]
  by_cases h : getStreakDay cfg t = x <;> simp [h] <;> omega

/-- Completions on distinct streak days are distinct completions: the day
counts over any backward range of days sum to at most the list length. -/
theorem sum_streakDayCount_le (cfg : StreakConfig) (l : List ℤ) (d : ℤ) (k : ℕ) :
    (∑ j in Finset.range k, streakDayCount cfg l (d - (j : ℤ))) ≤ l.length := by
  induction l with
  | nil => simp [streakDayCount]
  | cons t l ih =>
    have hsplit : (∑ j in Finset.range k, streakDayCount cfg (t :: l) (d - (j : ℤ)))
        = (∑ j in Finset.range k, if getStreakDay cfg t = d - (j : ℤ) then 1 else 0)
          + ∑ j in Finset.range k, streakDayCount cfg l (d - (j : ℤ)) := by
      rw [← Finset.sum_add_distrib]
      exact Finset.sum_congr rfl fun j _ => streakDayCount_cons cfg t l (d - (j : ℤ))
    have hone : (∑ j in Finset.range k, if getStreakDay cfg t = d - (j : ℤ) then 1 else 0)
        ≤ 1 := by
      classical
      rw [Finset.sum_boole]
      norm_cast
      apply Finset.card_le_one.mpr
      intro a ha b hb
      simp only [Finset.mem_filter, Finset.mem_range] at ha hb
      omega
    simp only [List.length_cons]
    omega

theorem run_le_length (cfg : StreakConfig) (l : List ℤ) (d : ℤ) (k : ℕ)
    (hmin : 1 ≤ cfg.minimumTasksPerDay)
    (hall : ∀ j : ℕ, j < k → cfg.minimumTasksPerDay ≤ streakDayCount cfg l (d - (j : ℤ))) :
    k ≤ l.length := by
  have h2 : (∑ _j in Finset.range k, (1 : ℕ))
      ≤ ∑ j in Finset.range k, streakDayCount cfg l (d - (j : ℤ)) :=
    Finset.sum_le_sum fun j hj => le_trans hmin (hall j (Finset.mem_range.mp hj))
  have h3 := sum_streakDayCount_le cfg l d k
  simp only [Finset.sum_const, Finset.card_range, smul_eq_mul, mul_one] at h2
  omega

/-- When today itself qualifies, the streak is the length of the maximal
backward run of qualifying days starting today. -/
theorem calculateStreak_run_today (cfg : StreakConfig) (completions : List ℤ) (now : ℤ)
    (hmin : 1 ≤ cfg.minimumTasksPerDay) (k : ℕ) (hk : 1 ≤ k)
    (hall : ∀ j : ℕ, j < k → cfg.minimumTasksPerDay ≤
        streakDayCount cfg (recentCompletions completions now) (getStreakDay cfg now - (j : ℤ)))
    (hstop : streakDayCount cfg (recentCompletions completions now)
        (getStreakDay cfg now - (k : ℤ)) < cfg.minimumTasksPerDay) :
    (calculateStreak cfg completions now).currentStreak = k := by
  have hq : cfg.minimumTasksPerDay ≤
      streakDayCount cfg (recentCompletions completions now) (getStreakDay cfg now) := by
    have := hall 0 (by omega)
    simpa using this
  have hfuel : k + 1 ≤ (recentCompletions completions now).length + 2 := by
    have := run_le_length cfg (recentCompletions completions now) (getStreakDay cfg now) k
      hmin hall
    omega
  have hrun := streakWalk_run cfg
    (fun d => streakDayCount cfg (recentCompletions completions now) d)
    (getStreakDay cfg now) k (getStreakDay cfg now) 0
    ((recentCompletions completions now).length + 2)
    (Or.inr hq) hall hstop hfuel
  show streakWalk cfg (fun d => streakDayCount cfg (recentCompletions completions now) d)
      (getStreakDay cfg now) ((recentCompletions completions now).length + 2)
      (getStreakDay cfg now) 0 = k
  omega

/-- When today has no qualifying completion at all, today is skipped and the
streak is the length of the maximal backward run of qualifying days starting
yesterday. -/
theorem calculateStreak_run_skip (cfg : StreakConfig) (completions : List ℤ) (now : ℤ)
    (hmin : 1 ≤ cfg.minimumTasksPerDay) (k : ℕ)
    (h0 : streakDayCount cfg (recentCompletions completions now) (getStreakDay cfg now) = 0)
    (hall : ∀ j : ℕ, j < k → cfg.minimumTasksPerDay ≤
        streakDayCount cfg (recentCompletions completions now)
          (getStreakDay cfg now - 1 - (j : ℤ)))
    (hstop : streakDayCount cfg (recentCompletions completions now)
        (getStreakDay cfg now - 1 - (k : ℤ)) < cfg.minimumTasksPerDay) :
    (calculateStreak cfg completions now).currentStreak = k := by
  show streakWalk cfg (fun d => streakDayCount cfg (recentCompletions completions now) d)
      (getStreakDay cfg now) ((recentCompletions completions now).length + 2)
      (getStreakDay cfg now) 0 = k
  rw [show (recentCompletions completions now).length + 2
      = ((recentCompletions completions now).length + 1) + 1 from rfl]
  rw [streakWalk_succ, if_neg (by omega), if_pos ⟨rfl, rfl⟩]
  cases k with
  | zero =>
    obtain ⟨f, hf⟩ : ∃ f, (recentCompletions completions now).length + 1 = f + 1 :=
      ⟨(recentCompletions completions now).length, rfl⟩
    rw [hf, streakWalk_succ]
    have hstop0 : streakDayCount cfg (recentCompletions completions now)
        (getStreakDay cfg now - 1) < cfg.minimumTasksPerDay := by
      simpa using hstop
    rw [if_neg (by omega), if_neg (by rintro ⟨_, h⟩; omega)]
  | succ k' =>
    have hq : cfg.minimumTasksPerDay ≤
        streakDayCount cfg (recentCompletions completions now) (getStreakDay cfg now - 1) := by
      have := hall 0 (by omega)
      simpa using this
    have hfuel : (k' + 1) + 1 ≤ (recentCompletions completions now).length + 1 := by
      have := run_le_length cfg (recentCompletions completions now)
        (getStreakDay cfg now - 1) (k' + 1) hmin hall
      omega
    have hrun := streakWalk_run cfg
      (fun d => streakDayCount cfg (recentCompletions completions now) d)
      (getStreakDay cfg now) (k' + 1) (getStreakDay cfg now - 1) 0
      ((recentCompletions completions now).length + 1)
      (Or.inr hq) hall hstop hfuel
    omega

theorem noon_streakDay (x : ℤ) :
    getStreakDay DEFAULT_CONFIG (x * 86400000 + 43200000) = x := by
  simp only [getStreakDay, DEFAULT_CONFIG]
  omega

theorem noon_recent (D : ℤ) :
    recentCompletions
        [D * 86400000 + 43200000, (D - 1) * 86400000 + 43200000,
         (D - 2) * 86400000 + 43200000] (D * 86400000 + 43200000)
      = [D * 86400000 + 43200000, (D - 1) * 86400000 + 43200000,
         (D - 2) * 86400000 + 43200000] := by
  rw [recentCompletions]
  rw [List.filter_cons_of_pos (by simp only [decide_eq_true_eq]; omega),
      List.filter_cons_of_pos (by simp only [decide_eq_true_eq]; omega),
      List.filter_cons_of_pos (by simp only [decide_eq_true_eq]; omega),
      List.filter_nil]

theorem noon_count (D v : ℤ) :
    streakDayCount DEFAULT_CONFIG
        [D * 86400000 + 43200000, (D - 1) * 86400000 + 43200000,
         (D - 2) * 86400000 + 43200000] v
      = (if D = v then 1 else 0) + (if D - 1 = v then 1 else 0)
        + (if D - 2 = v then 1 else 0) := by
  rw [streakDayCount]
  simp only [List.filter_cons, List.filter_nil, decide_eq_true_eq, noon_streakDay]
  by_cases h0 : D = v <;> by_cases h1 : D - 1 = v <;> by_cases h2 : D - 2 = v <;>
    simp [h0, h1, h2]

/-- C4: the backward walk of `calculateStreak` over completions grouped by
streak day (restricted to the trailing 90-day window): (a) when today
qualifies, the streak counts the consecutive qualifying days backward from
today and stops at the first day below the minimum; (b) today with zero
qualifying completions is skipped without breaking the streak, the walk then
counting backward from yesterday; (c) `streakAtRisk` is true exactly when the
computed streak is positive and today's count is below the minimum; (d)
`completedToday` is today's count; (e) in particular, one completion on each
of days D, D-1, D-2 (at noon) and none on D-3, evaluated at noon of day D
with the default configuration, yields streak 3 and no at-risk flag. -/
theorem calculateStreak_spec (cfg : StreakConfig) (completions : List ℤ) (now : ℤ)
    (hmin : 1 ≤ cfg.minimumTasksPerDay) :
    (∀ k : ℕ, 1 ≤ k →
      (∀ j : ℕ, j < k → cfg.minimumTasksPerDay ≤
          streakDayCount cfg (recentCompletions completions now)
            (getStreakDay cfg now - (j : ℤ))) →
      streakDayCount cfg (recentCompletions completions now)
          (getStreakDay cfg now - (k : ℤ)) < cfg.minimumTasksPerDay →
      (calculateStreak cfg completions now).currentStreak = k) ∧
    (∀ k : ℕ,
      streakDayCount cfg (recentCompletions completions now) (getStreakDay cfg now) = 0 →
      (∀ j : ℕ, j < k → cfg.minimumTasksPerDay ≤
          streakDayCount cfg (recentCompletions completions now)
            (getStreakDay cfg now - 1 - (j : ℤ))) →
      streakDayCount cfg (recentCompletions completions now)
          (getStreakDay cfg now - 1 - (k : ℤ)) < cfg.minimumTasksPerDay →
      (calculateStreak cfg completions now).currentStreak = k) ∧
    ((calculateStreak cfg completions now).streakAtRisk = true ↔
      0 < (calculateStreak cfg completions now).currentStreak ∧
      (calculateStreak cfg completions now).completedToday < cfg.minimumTasksPerDay) ∧
    ((calculateStreak cfg completions now).completedToday
        = streakDayCount cfg (recentCompletions completions now) (getStreakDay cfg now)) ∧
    (∀ D : ℤ,
      calculateStreak DEFAULT_CONFIG
          [D * 86400000 + 43200000, (D - 1) * 86400000 + 43200000,
           (D - 2) * 86400000 + 43200000] (D * 86400000 + 43200000)
        = { currentStreak := 3, streakAtRisk := false, completedToday := 1,
            requiredDaily := 1 }) := by
  refine ⟨fun k hk hall hstop => calculateStreak_run_today cfg completions now hmin k hk
      hall hstop,
    fun k h0 hall hstop => calculateStreak_run_skip cfg completions now hmin k h0
      hall hstop, ?_, rfl, fun D => ?_⟩
  · show decide (0 < (calculateStreak cfg completions now).currentStreak ∧
        streakDayCount cfg (recentCompletions completions now) (getStreakDay cfg now)
          < cfg.minimumTasksPerDay) = true ↔ _
    simp only [decide_eq_true_eq]
    exact Iff.rfl
  · have hall : ∀ j : ℕ, j < 3 → DEFAULT_CONFIG.minimumTasksPerDay ≤
        streakDayCount DEFAULT_CONFIG
          (recentCompletions
            [D * 86400000 + 43200000, (D - 1) * 86400000 + 43200000,
             (D - 2) * 86400000 + 43200000] (D * 86400000 + 43200000))
          (getStreakDay DEFAULT_CONFIG (D * 86400000 + 43200000) - (j : ℤ)) := by
      intro j hj
      rw [noon_recent, noon_streakDay, noon_count]
      rw [show DEFAULT_CONFIG.minimumTasksPerDay = 1 from rfl]
      interval_cases j <;> push_cast <;> split_ifs <;> omega
    have hstop : streakDayCount DEFAULT_CONFIG
        (recentCompletions
          [D * 86400000 + 43200000, (D - 1) * 86400000 + 43200000,
           (D - 2) * 86400000 + 43200000] (D * 86400000 + 43200000))
        (getStreakDay DEFAULT_CONFIG (D * 86400000 + 43200000) - ((3 : ℕ) : ℤ))
          < DEFAULT_CONFIG.minimumTasksPerDay := by
      rw [noon_recent, noon_streakDay, noon_count]
      rw [show DEFAULT_CONFIG.minimumTasksPerDay = 1 from rfl]
      push_cast
      split_ifs <;> omega
    have hstreak := calculateStreak_run_today DEFAULT_CONFIG
      [D * 86400000 + 43200000, (D - 1) * 86400000 + 43200000,
       (D - 2) * 86400000 + 43200000] (D * 86400000 + 43200000)
      (by decide) 3 (by omega) hall hstop
    have htoday : streakDayCount DEFAULT_CONFIG
        (recentCompletions
          [D * 86400000 + 43200000, (D - 1) * 86400000 + 43200000,
           (D - 2) * 86400000 + 43200000] (D * 86400000 + 43200000))
        (getStreakDay DEFAULT_CONFIG (D * 86400000 + 43200000)) = 1 := by
      rw [noon_recent, noon_streakDay, noon_count]
      split_ifs <;> omega
    refine StreakResult.ext' _ _ hstreak ?_ ?_ rfl
    · show decide (0 < (calculateStreak DEFAULT_CONFIG _ _).currentStreak ∧
          streakDayCount DEFAULT_CONFIG
            (recentCompletions
              [D * 86400000 + 43200000, (D - 1) * 86400000 + 43200000,
               (D - 2) * 86400000 + 43200000] (D * 86400000 + 43200000))
            (getStreakDay DEFAULT_CONFIG (D * 86400000 + 43200000))
              < DEFAULT_CONFIG.minimumTasksPerDay) = false
      rw [decide_eq_false_iff_not]
      rintro ⟨-, hlt⟩
      rw [htoday] at hlt
      exact absurd hlt (by decide)
    · exact htoday

/-- C4 (witness): a single completion at noon of day 0, evaluated at that same
instant with the default configuration, yields a streak of 1. -/
theorem calculateStreak_spec_witness :
    (calculateStreak DEFAULT_CONFIG [43200000] 43200000).currentStreak = 1 :=
  (calculateStreak_spec DEFAULT_CONFIG [43200000] 43200000 (by decide)).1 1 (by decide)
    (fun j hj => by
      have hj0 : j = 0 := by omega
      subst hj0
      decide)
    (by decide)

/-! Part 4: the points ledger and its integrity trigger
(database schema, `validate_points_balance`). -/

structure LedgerEntry where
  childId : String
  transactionType : String
  pointsAmount : ℤ
  balanceAfter : ℤ
  referenceType : String
  referenceId : String
  deriving DecidableEq

/-- `SELECT COALESCE(SUM(points_amount), 0) FROM points_ledger WHERE child_id = …`. -/
def ledgerSum (ledger : List LedgerEntry) (childId : String) : ℤ :=
  ((ledger.filter (fun e => decide (e.childId = childId))).map
    (fun e => e.pointsAmount)).sum

inductive LedgerError
  | integrityError
  deriving DecidableEq

/-- The BEFORE INSERT trigger `validate_points_balance` together with the
insert it guards: `calculated_balance` is the sum of `points_amount` over the
rows already in `points_ledger` for the child — the row being inserted is not
yet visible to that query — and the insert is rejected with
'Points balance mismatch' when `NEW.balance_after` differs from that sum. -/
def appendLedgerEntry (ledger : List LedgerEntry) (e : LedgerEntry) :
    Except LedgerError (List LedgerEntry) :=
  let calculated := ledgerSum ledger e.childId
  if e.balanceAfter ≠ calculated then Except.error LedgerError.integrityError
  else Except.ok (ledger ++ [e])

/-- C1 (code bug): the trigger compares `balance_after` against the sum of the
entries excluding the row being inserted.  Appending a first entry of 10
points with the correct declared balance 10 = 0 + 10 is rejected with the
integrity error, while the same entry declaring balance 0 (which violates the
running-sum invariant) is accepted; in both cases prior entries are unchanged
(a rejected append leaves the ledger as it was). -/
theorem validate_points_balance_bug :
    appendLedgerEntry []
        { childId := "c1", transactionType := "earned", pointsAmount := 10,
          balanceAfter := 10, referenceType := "task_completion", referenceId := "t1" }
      = Except.error LedgerError.integrityError ∧
    appendLedgerEntry []
        { childId := "c1", transactionType := "earned", pointsAmount := 10,
          balanceAfter := 0, referenceType := "task_completion", referenceId := "t1" }
      = Except.ok
        [{ childId := "c1", transactionType := "earned", pointsAmount := 10,
           balanceAfter := 0, referenceType := "task_completion", referenceId := "t1" }] := by
  constructor <;> rfl

/-! Part 5: the achievement engine (`AchievementEngine`). -/

structure ChildProfile where
  userId : String
  currentStreakDays : ℤ
  totalTasksCompleted : ℤ
  totalPointsEarned : ℤ
  deriving DecidableEq

structure Achievement where
  id : String
  name : String
  unlockCriteriaType : String
  unlockCriteriaValue : ℤ
  criteriaCategory : Option String
  criteriaBeforeTime : Option String
  pointsReward : ℤ
  deriving DecidableEq

/-- `checkUnlockCriteria` of the source: a switch on the criteria-type string.
The `category_master` branch counts approved completions in the configured
category via an external query, passed here as `categoryCount`.  The switch
has no `time_based` case: such achievements fall through to
`default: return false` (no before-the-cutoff completion count is even
queried). -/
def checkUnlockCriteria (child : ChildProfile) (achievement : Achievement)
    (categoryCount : ℕ) : Bool :=
  if achievement.unlockCriteriaType = "streak_days" then
    decide (achievement.unlockCriteriaValue ≤ child.currentStreakDays)
  else if achievement.unlockCriteriaType = "tasks_completed" then
    decide (achievement.unlockCriteriaValue ≤ child.totalTasksCompleted)
  else if achievement.unlockCriteriaType = "points_earned" then
    decide (achievement.unlockCriteriaValue ≤ child.totalPointsEarned)
  else if achievement.unlockCriteriaType = "category_master" then
    decide (achievement.unlockCriteriaValue ≤ (categoryCount : ℤ))
  else
    false

/-- "Early Bird" of SYSTEM_ACHIEVEMENTS: unlock_criteria_type time_based,
value 10, before_time 08:00, points_reward 75. -/
def earlyBird : Achievement :=
  { id := "early_bird", name := "Early Bird", unlockCriteriaType := "time_based",
    unlockCriteriaValue := 10, criteriaCategory := none,
    criteriaBeforeTime := some "08:00", pointsReward := 75 }

/-- "Week Strong" of SYSTEM_ACHIEVEMENTS: streak_days, value 7, reward 50. -/
def weekStrong : Achievement :=
  { id := "week_strong", name := "Week Strong", unlockCriteriaType := "streak_days",
    unlockCriteriaValue := 7, criteriaCategory := none,
    criteriaBeforeTime := none, pointsReward := 50 }

/-- C6 (code bug): for a child whose counters exceed every threshold,
the four implemented criteria types evaluate per the criteria table, but the
catalog's `time_based` achievement "Early Bird" evaluates to false — the
switch has no `time_based` case, so it can never unlock no matter how many
completions precede the cutoff. -/
theorem checkUnlockCriteria_time_based_false :
    checkUnlockCriteria
        { userId := "c1", currentStreakDays := 50, totalTasksCompleted := 50,
          totalPointsEarned := 5000 } earlyBird 37 = false ∧
    checkUnlockCriteria
        { userId := "c1", currentStreakDays := 50, totalTasksCompleted := 50,
          totalPointsEarned := 5000 } weekStrong 0 = true ∧
    checkUnlockCriteria
        { userId := "c1", currentStreakDays := 50, totalTasksCompleted := 50,
          totalPointsEarned := 5000 }
        { id := "a1", name := "A", unlockCriteriaType := "tasks_completed",
          unlockCriteriaValue := 25, criteriaCategory := none,
          criteriaBeforeTime := none, pointsReward := 0 } 0 = true ∧
    checkUnlockCriteria
        { userId := "c1", currentStreakDays := 50, totalTasksCompleted := 50,
          totalPointsEarned := 5000 }
        { id := "a2", name := "B", unlockCriteriaType := "points_earned",
          unlockCriteriaValue := 1000, criteriaCategory := none,
          criteriaBeforeTime := none, pointsReward := 0 } 0 = true ∧
    checkUnlockCriteria
        { userId := "c1", currentStreakDays := 50, totalTasksCompleted := 50,
          totalPointsEarned := 5000 }
        { id := "a3", name := "C", unlockCriteriaType := "category_master",
          unlockCriteriaValue := 25, criteriaCategory := some "cleaning",
          criteriaBeforeTime := none, pointsReward := 0 } 37 = true := by
  refine ⟨rfl, rfl, rfl, rfl, rfl⟩

structure UnlockedAchievement where
  childId : String
  achievementId : String
  deriving DecidableEq

structure Notification where
  userId : String
  notificationType : String
  deriving DecidableEq

/-- The stores `unlockAchievement` touches: the child_achievements rows, the
points ledger, and the sent notifications. -/
structure EngineState where
  childAchievements : List UnlockedAchievement
  ledger : List LedgerEntry
  notifications : List Notification
  deriving DecidableEq

/-- Modelled from the spec: `awardPoints` is called by `unlockAchievement` but
its body is not in the repository sources; per the spec's ledger append
contract it appends exactly one LedgerEntry of type `bonus` with
`referenceType = achievement_unlock`, `pointsAmount` the reward, and
`balanceAfter` the child's prior balance plus the reward. -/
def awardPoints (childId : String) (reward : ℤ) (referenceId : String)
    (st : EngineState) : EngineState :=
  { st with ledger := st.ledger ++
      [{ childId := childId, transactionType := "bonus", pointsAmount := reward,
         balanceAfter := ledgerSum st.ledger childId + reward,
         referenceType := "achievement_unlock", referenceId := referenceId }] }

/-- `unlockAchievement(childId, achievementId)` of the source: skip silently if
an UnlockedAchievement already exists, else insert the record, award bonus
points when `points_reward > 0`, and send one notification. -/
def unlockAchievement (catalog : List Achievement) (childId achievementId : String)
    (st : EngineState) : EngineState :=
  if st.childAchievements.any
      (fun u => decide (u.childId = childId ∧ u.achievementId = achievementId)) then
    st
  else
    let st1 := { st with childAchievements :=
        st.childAchievements ++ [{ childId := childId, achievementId := achievementId }] }
    let st2 :=
      match catalog.find? (fun a => decide (a.id = achievementId)) with
      | some a =>
        if 0 < a.pointsReward then awardPoints childId a.pointsReward achievementId st1
        else st1
      | none => st1
    { st2 with notifications := st2.notifications ++
        [{ userId := childId, notificationType := "achievement_unlocked" }] }

def countUnlocked (st : EngineState) (childId achievementId : String) : ℕ :=
  (st.childAchievements.filter
    (fun u => decide (u.childId = childId ∧ u.achievementId = achievementId))).length

def countBonusEntries (st : EngineState) (childId achievementId : String) : ℕ :=
  (st.ledger.filter
    (fun e => decide (e.childId = childId ∧ e.referenceType = "achievement_unlock"
      ∧ e.referenceId = achievementId))).length

/-- If the record already exists, `unlockAchievement` is a silent no-op. -/
theorem unlockAchievement_of_unlocked (catalog : List Achievement)
    (childId achievementId : String) (st : EngineState)
    (h : 0 < countUnlocked st childId achievementId) :
    unlockAchievement catalog childId achievementId st = st := by
  rw [unlockAchievement, if_pos ?_]
  obtain ⟨x, hx⟩ := List.exists_mem_of_length_pos h
  have hm := List.mem_filter.mp hx
  exact List.any_eq_true.mpr ⟨x, hm.1, hm.2⟩

theorem unlockAchievement_fresh (catalog : List Achievement)
    (childId achievementId : String) (st : EngineState) (ach : Achievement)
    (hfind : catalog.find? (fun a => decide (a.id = achievementId)) = some ach)
    (hreward : 0 < ach.pointsReward)
    (h0 : countUnlocked st childId achievementId = 0) :
    countUnlocked (unlockAchievement catalog childId achievementId st)
        childId achievementId = 1 ∧
    countBonusEntries (unlockAchievement catalog childId achievementId st)
        childId achievementId
      = countBonusEntries st childId achievementId + 1 ∧
    (unlockAchievement catalog childId achievementId st).notifications.length
      = st.notifications.length + 1 := by
  have hany : st.childAchievements.any
      (fun u => decide (u.childId = childId ∧ u.achievementId = achievementId)) = false := by
    rw [List.any_eq_false]
    intro x hx
    have hnil : st.childAchievements.filter
        (fun u => decide (u.childId = childId ∧ u.achievementId = achievementId)) = [] :=
      List.length_eq_zero.mp h0
    have := List.filter_eq_nil_iff.mp hnil x hx
    simpa using this
  have hcond : ¬ (st.childAchievements.any
      (fun u => decide (u.childId = childId ∧ u.achievementId = achievementId)) = true) := by
    rw [hany]
    exact Bool.false_ne_true
  rw [unlockAchievement, if_neg hcond, hfind]
  simp only [if_pos hreward]
  refine ⟨?_, ?_, ?_⟩
  · show ((st.childAchievements
          ++ [({ childId := childId, achievementId := achievementId } : UnlockedAchievement)]).filter
        (fun u : UnlockedAchievement =>
          decide (u.childId = childId ∧ u.achievementId = achievementId))).length = 1
    rw [List.filter_append]
    have hnil : st.childAchievements.filter
        (fun u => decide (u.childId = childId ∧ u.achievementId = achievementId)) = [] :=
      List.length_eq_zero.mp h0
    rw [hnil]
    simp
  · show ((st.ledger
          ++ [({ childId := childId, transactionType := "bonus",
                 pointsAmount := ach.pointsReward,
                 balanceAfter := ledgerSum st.ledger childId + ach.pointsReward,
                 referenceType := "achievement_unlock",
                 referenceId := achievementId } : LedgerEntry)]).filter
        (fun e : LedgerEntry => decide (e.childId = childId
          ∧ e.referenceType = "achievement_unlock"
          ∧ e.referenceId = achievementId))).length
      = countBonusEntries st childId achievementId + 1
    rw [List.filter_append, List.length_append, countBonusEntries]
    simp
  · show (st.notifications
          ++ [({ userId := childId, notificationType := "achievement_unlocked" } : Notification)]).length
      = st.notifications.length + 1
    simp

/-- C7: unlocking is idempotent.  Starting from a state with no
UnlockedAchievement record and no bonus ledger entry for the pair, invoking
the unlock path n ≥ 1 times (for an achievement in the catalog with a positive
reward) yields exactly one UnlockedAchievement record, exactly one bonus
LedgerEntry, exactly one notification, and a state identical to that after the
first invocation (every later invocation is a silent no-op). -/
theorem unlockAchievement_idempotent (catalog : List Achievement)
    (childId achievementId : String) (st : EngineState) (ach : Achievement)
    (hfind : catalog.find? (fun a => decide (a.id = achievementId)) = some ach)
    (hreward : 0 < ach.pointsReward)
    (h0 : countUnlocked st childId achievementId = 0)
    (hb0 : countBonusEntries st childId achievementId = 0)
    (n : ℕ) (hn : 1 ≤ n) :
    countUnlocked ((unlockAchievement catalog childId achievementId)^[n] st)
        childId achievementId = 1 ∧
    countBonusEntries ((unlockAchievement catalog childId achievementId)^[n] st)
        childId achievementId = 1 ∧
    ((unlockAchievement catalog childId achievementId)^[n] st).notifications.length
        = st.notifications.length + 1 ∧
    (unlockAchievement catalog childId achievementId)^[n] st
        = unlockAchievement catalog childId achievementId st := by
  obtain ⟨m, rfl⟩ : ∃ m, n = m + 1 := ⟨n - 1, by omega⟩
  obtain ⟨hc1, hcb, hcn⟩ :=
    unlockAchievement_fresh catalog childId achievementId st ach hfind hreward h0
  have hfix : (unlockAchievement catalog childId achievementId)^[m]
      (unlockAchievement catalog childId achievementId st)
      = unlockAchievement catalog childId achievementId st :=
    Function.iterate_fixed
      (unlockAchievement_of_unlocked catalog childId achievementId _ (by omega)) m
  have hit : (unlockAchievement catalog childId achievementId)^[m + 1] st
      = unlockAchievement catalog childId achievementId st := by
    rw [Function.iterate_succ_apply, hfix]
  rw [hit]
  exact ⟨hc1, by omega, hcn, rfl⟩

/-- C7 (witness): unlocking "Week Strong" twice from an empty state yields
exactly one record, one bonus entry, one notification. -/
theorem unlockAchievement_idempotent_witness :
    countUnlocked ((unlockAchievement [weekStrong] "c1" "week_strong")^[2]
        { childAchievements := [], ledger := [], notifications := [] })
      "c1" "week_strong" = 1 ∧
    countBonusEntries ((unlockAchievement [weekStrong] "c1" "week_strong")^[2]
        { childAchievements := [], ledger := [], notifications := [] })
      "c1" "week_strong" = 1 :=
  have h := unlockAchievement_idempotent [weekStrong] "c1" "week_strong"
    { childAchievements := [], ledger := [], notifications := [] } weekStrong
    rfl (by decide) rfl rfl 2 (by decide)
  ⟨h.1, h.2.1⟩

/-! Part 6: the leaderboard ranking service (lib/gamification/leaderboard.ts).
The per-child period aggregates the service reads from the database (points
in range, approved completions in range, current streak, achievement count)
are passed in as `ChildStats`. -/

structure ChildStats where
  childId : String
  childName : String
  weeklyPoints : ℤ
  weeklyTasks : ℤ
  currentStreak : ℤ
  achievements : ℤ
  deriving DecidableEq

structure LeaderboardWeights where
  weeklyPoints : ℚ
  weeklyTasks : ℚ
  streakBonus : ℚ
  achievementBonus : ℚ
  deriving DecidableEq

def DEFAULT_WEIGHTS : LeaderboardWeights :=
  { weeklyPoints := 1, weeklyTasks := 5, streakBonus := 2, achievementBonus := 10 }

structure LeaderboardEntry where
  childId : String
  childName : String
  score : ℤ
  rank : ℕ
  weeklyPoints : ℤ
  weeklyTasks : ℤ
  currentStreak : ℤ
  achievements : ℤ
  deriving DecidableEq

/-- `calculateScore` of the source: the weighted composite. -/
def calculateScore (w : LeaderboardWeights) (s : ChildStats) : ℚ :=
  (s.weeklyPoints : ℚ) * w.weeklyPoints + (s.weeklyTasks : ℚ) * w.weeklyTasks
    + (s.currentStreak : ℚ) * w.streakBonus + (s.achievements : ℚ) * w.achievementBonus

/-- The entry built in the per-child loop: `score: Math.round(score)`,
`rank: 0` until the sort assigns it. -/
def leaderboardEntryOf (w : LeaderboardWeights) (c : ChildStats) : LeaderboardEntry :=
  { childId := c.childId, childName := c.childName,
    score := jsRound (calculateScore w c), rank := 0,
    weeklyPoints := c.weeklyPoints, weeklyTasks := c.weeklyTasks,
    currentStreak := c.currentStreak, achievements := c.achievements }

/-- `entries.forEach((entry, index) => entry.rank = index + 1)`, started at 1. -/
def assignRanks : ℕ → List LeaderboardEntry → List LeaderboardEntry
  | _, [] => []
  | i, e :: es => { e with rank := i } :: assignRanks (i + 1) es

/-- `getFamilyLeaderboard`: build an entry per active child, sort descending
by score (`(a, b) => b.score - a.score`, a stable sort), assign 1-based
ranks. -/
def getFamilyLeaderboard (w : LeaderboardWeights) (children : List ChildStats) :
    List LeaderboardEntry :=
  let entries := children.map (leaderboardEntryOf w)
  let sorted := entries.mergeSort (fun a b => decide (b.score ≤ a.score))
  assignRanks 1 sorted

theorem assignRanks_map_rank (l : List LeaderboardEntry) :
    ∀ i : ℕ, (assignRanks i l).map (fun e => e.rank) = List.range' i l.length := by
  induction l with
  | nil => intro i; simp [assignRanks]
  | cons e es ih =>
    intro i
    simp only [assignRanks, List.map_cons, List.length_cons]
    rw [show List.range' i (es.length + 1) = i :: List.range' (i + 1) es.length by
      simp [List.range']]
    rw [ih (i + 1)]

theorem assignRanks_map_pair (l : List LeaderboardEntry) :
    ∀ i : ℕ, (assignRanks i l).map (fun e => (e.childId, e.score))
      = l.map (fun e => (e.childId, e.score)) := by
  induction l with
  | nil => intro i; simp [assignRanks]
  | cons e es ih => intro i; simp [assignRanks, ih (i + 1)]

theorem assignRanks_map_score (l : List LeaderboardEntry) :
    ∀ i : ℕ, (assignRanks i l).map (fun e => e.score) = l.map (fun e => e.score) := by
  induction l with
  | nil => intro i; simp [assignRanks]
  | cons e es ih => intro i; simp [assignRanks, ih (i + 1)]

theorem leaderboardEntryOf_score (c : ChildStats) :
    (leaderboardEntryOf DEFAULT_WEIGHTS c).score
      = c.weeklyPoints + 5 * c.weeklyTasks + 2 * c.currentStreak + 10 * c.achievements := by
  show jsRound (calculateScore DEFAULT_WEIGHTS c) = _
  rw [show calculateScore DEFAULT_WEIGHTS c
      = ((c.weeklyPoints + 5 * c.weeklyTasks + 2 * c.currentStreak
          + 10 * c.achievements : ℤ) : ℚ) by
    rw [calculateScore, DEFAULT_WEIGHTS]
    push_cast
    ring]
  exact jsRound_intCast _

/-- C8: with the default weights, every child's entry carries the composite
score weeklyPoints + 5·weeklyTasks + 2·currentStreak + 10·achievements
(the rounding is the identity on this integer sum), the returned sequence is
sorted with non-increasing scores, and the ranks are exactly 1..n in order. -/
theorem getFamilyLeaderboard_spec (children : List ChildStats) :
    List.Pairwise (fun x y : ℤ => y ≤ x)
      ((getFamilyLeaderboard DEFAULT_WEIGHTS children).map (fun e => e.score)) ∧
    (getFamilyLeaderboard DEFAULT_WEIGHTS children).map (fun e => e.rank)
      = List.range' 1 children.length ∧
    ((getFamilyLeaderboard DEFAULT_WEIGHTS children).map
        (fun e => (e.childId, e.score))).Perm
      (children.map (fun c => (c.childId,
        c.weeklyPoints + 5 * c.weeklyTasks + 2 * c.currentStreak
          + 10 * c.achievements))) := by
  refine ⟨?_, ?_, ?_⟩
  · show List.Pairwise (fun x y : ℤ => y ≤ x)
      ((assignRanks 1 ((children.map (leaderboardEntryOf DEFAULT_WEIGHTS)).mergeSort
        (fun a b => decide (b.score ≤ a.score)))).map (fun e => e.score))
    rw [assignRanks_map_score]
    have hs := @List.sorted_mergeSort LeaderboardEntry
      (fun a b : LeaderboardEntry => decide (b.score ≤ a.score))
      (fun a b c h1 h2 => by
        simp only [decide_eq_true_eq] at h1 h2 ⊢
        omega)
      (fun a b => by
        simp only [Bool.or_eq_true, decide_eq_true_eq]
        omega)
      (children.map (leaderboardEntryOf DEFAULT_WEIGHTS))
    apply List.pairwise_map.mpr
    refine List.Pairwise.imp ?_ hs
    intro a b h
    simpa using h
  · show (assignRanks 1 ((children.map (leaderboardEntryOf DEFAULT_WEIGHTS)).mergeSort
        (fun a b => decide (b.score ≤ a.score)))).map (fun e => e.rank) = _
    rw [assignRanks_map_rank]
    rw [List.length_mergeSort, List.length_map]
  · show ((assignRanks 1 ((children.map (leaderboardEntryOf DEFAULT_WEIGHTS)).mergeSort
        (fun a b => decide (b.score ≤ a.score)))).map
          (fun e => (e.childId, e.score))).Perm _
    rw [assignRanks_map_pair]
    have hperm := List.mergeSort_perm (children.map (leaderboardEntryOf DEFAULT_WEIGHTS))
      (fun a b => decide (b.score ≤ a.score))
    refine (hperm.map (fun e => (e.childId, e.score))).trans ?_
    rw [List.map_map]
    rw [show ((fun e : LeaderboardEntry => (e.childId, e.score))
        ∘ leaderboardEntryOf DEFAULT_WEIGHTS)
      = fun c : ChildStats => (c.childId,
          c.weeklyPoints + 5 * c.weeklyTasks + 2 * c.currentStreak
            + 10 * c.achievements) from funext fun c => by
      simp only [Function.comp_apply, Prod.mk.injEq]
      exact ⟨rfl, leaderboardEntryOf_score c⟩]

end TaskBuddy
